import Mathlib

/-!
# Verification of `tools/apply_priority.py` and `tools/check_go_coverage.py`

A shallow embedding of the issue-triage synchronizer (`apply_priority.py`)
and the coverage gate (`check_go_coverage.py`).

Conventions of the embedding:

* Python `dict` values are insertion-ordered association lists
  (`List (String × Int)`); `dictInsert` updates an existing key in place and
  appends a fresh key at the end, `dictGet` models `dict.get`.
* Each `subprocess` interaction is represented by its observable data: a
  success flag for the exit status and, where the script reads stdout,
  the parsed payload.  Functions that issue tracker calls also return the
  list of calls they made, so that "no patch call is made"-style properties
  are statements about the returned trace.
* Python exceptions become an explicit `PyError` sum; an uncaught exception
  terminates `main` with exit code 1, a caught one is turned into report
  data.  `except subprocess.CalledProcessError` catches exactly the
  `calledProcessError` constructor.
-/

namespace ApplyPriority

/-- Python exceptions relevant to the scripts: `subprocess.CalledProcessError`
(raised by `run(..., check=True)` on a nonzero exit status),
`RuntimeError` (raised explicitly by `apply_issue`), and the
`ValueError`/`KeyError` family raised while parsing a JSON payload. -/
inductive PyError where
  | calledProcessError (stderr : String)
  | runtimeError (msg : String)
  | parseError (msg : String)
  deriving DecidableEq, Repr

/-- Insertion-ordered Python `dict` with string keys and integer values,
as an association list. -/
abbrev PyDict := List (String × Int)

/-- `d[k] = v` on a Python dict: overwrite the value in place when the key
exists, append at the end otherwise. -/
def dictInsert (m : PyDict) (k : String) (v : Int) : PyDict :=
  if m.any (fun p => p.1 = k) then
    m.map (fun p => if p.1 = k then (k, v) else p)
  else
    m ++ [(k, v)]

/-- `d.get(k)` on a Python dict. -/
def dictGet (m : PyDict) (k : String) : Option Int :=
  (m.find? (fun p => decide (p.1 = k))).map Prod.snd

theorem dictGet_nil (k : String) : dictGet [] k = none := rfl

theorem dictGet_cons (p : String × Int) (m : PyDict) (k : String) :
    dictGet (p :: m) k = if p.1 = k then some p.2 else dictGet m k := by
  by_cases h : p.1 = k <;> simp [dictGet, List.find?, h]

theorem dictGet_map_update_ne (m : PyDict) (k : String) (v : Int) (t : String)
    (h : t ≠ k) :
    dictGet (m.map (fun p => if p.1 = k then (k, v) else p)) t = dictGet m t := by
  induction m with
  | nil => rfl
  | cons p ps ih =>
    by_cases hp : p.1 = k
    · have hkt : ¬ (k = t) := fun hk => h hk.symm
      have hpt : ¬ (p.1 = t) := by rw [hp]; exact hkt
      simp [dictGet_cons, hp, hkt, hpt, ih]
    · simp [dictGet_cons, hp, ih]

theorem dictGet_map_update_self (m : PyDict) (k : String) (v : Int)
    (h : m.any (fun p => p.1 = k) = true) :
    dictGet (m.map (fun p => if p.1 = k then (k, v) else p)) k = some v := by
  induction m with
  | nil => simp at h
  | cons p ps ih =>
    by_cases hp : p.1 = k
    · simp [dictGet_cons, hp]
    · simp only [List.map_cons, if_neg hp, dictGet_cons, hp, if_false]
      exact ih (by simpa [List.any_cons, hp] using h)

theorem dictGet_append_single_ne (m : PyDict) (k : String) (v : Int)
    (t : String) (h : t ≠ k) : dictGet (m ++ [(k, v)]) t = dictGet m t := by
  induction m with
  | nil =>
    have hkt : ¬ (k = t) := fun hk => h hk.symm
    simp [dictGet_cons, dictGet_nil, hkt]
  | cons p ps ih => simp [dictGet_cons, ih]

theorem dictGet_append_single_self (m : PyDict) (k : String) (v : Int)
    (h : ¬ m.any (fun p => p.1 = k) = true) :
    dictGet (m ++ [(k, v)]) k = some v := by
  induction m with
  | nil => simp [dictGet_cons]
  | cons p ps ih =>
    have hp : ¬ p.1 = k := fun hk => h (by simp [List.any_cons, hk])
    simp only [List.cons_append, dictGet_cons, hp, if_false]
    exact ih (fun hk => h (by simp [List.any_cons]; right; simpa using hk))

/-- Looking up the freshly written key returns the freshly written value. -/
theorem dictGet_dictInsert_self (m : PyDict) (k : String) (v : Int) :
    dictGet (dictInsert m k v) k = some v := by
  unfold dictInsert
  by_cases h : m.any (fun p => p.1 = k)
  · simpa [h] using dictGet_map_update_self m k v h
  · simpa [h] using dictGet_append_single_self m k v h

/-- Looking up any other key is unaffected by the write. -/
theorem dictGet_dictInsert_ne (m : PyDict) (k : String) (v : Int) (t : String)
    (h : t ≠ k) : dictGet (dictInsert m k v) t = dictGet m t := by
  unfold dictInsert
  by_cases ha : m.any (fun p => p.1 = k)
  · simpa [ha] using dictGet_map_update_ne m k v t h
  · simpa [ha] using dictGet_append_single_ne m k v t h

theorem dictGet_dictInsert (m : PyDict) (k : String) (v : Int) (t : String) :
    dictGet (dictInsert m k v) t = if t = k then some v else dictGet m t := by
  by_cases h : t = k
  · subst h; simp [dictGet_dictInsert_self]
  · simp [h, dictGet_dictInsert_ne m k v t h]

/-! ## `get_issue_map` (Issue Index Builder)

`get_issue_map` runs `gh issue list --limit 200 --state open --json
number,title` and returns `{item["title"]: item["number"] for item in data}`.
The fetched issues are modelled as the already-decoded list of
(title, number) pairs in fetch order. -/

/-- The dict comprehension `{item["title"]: item["number"] for item in data}`:
a left fold of `dictInsert` over the fetched issues in order. -/
def get_issue_map (data : List (String × Int)) : PyDict :=
  data.foldl (fun m it => dictInsert m it.1 it.2) []

/-- The number of the last issue in fetch order bearing title `t`, if any:
the "later overwrites earlier" reading of the collision policy. -/
def lastNumberOf (data : List (String × Int)) (t : String) : Option Int :=
  data.foldl (fun acc it => if it.1 = t then some it.2 else acc) none

theorem get_issue_map_foldl_eq (data : List (String × Int)) (t : String) :
    ∀ m : PyDict,
      dictGet (data.foldl (fun m it => dictInsert m it.1 it.2) m) t =
        data.foldl (fun acc it => if it.1 = t then some it.2 else acc)
          (dictGet m t) := by
  induction data with
  | nil => intro m; rfl
  | cons p ps ih =>
    intro m
    simp only [List.foldl_cons]
    rw [ih (dictInsert m p.1 p.2), dictGet_dictInsert]
    by_cases h : p.1 = t
    · subst h
      simp
    · have ht : ¬ (t = p.1) := fun hk => h hk.symm
      simp [h, ht]

/-- **C8.** The issue index maps each title to the number of the *last*
issue in fetch order carrying that title: a later duplicate silently
overwrites an earlier one. -/
theorem get_issue_map_last_wins (data : List (String × Int)) (t : String) :
    dictGet (get_issue_map data) t = lastNumberOf data t := by
  unfold get_issue_map lastNumberOf
  simpa using get_issue_map_foldl_eq data t []

/-! ## `apply_issue` (Issue Updater, two-tier protocol)

`apply_issue(repo, number, priority, milestone_title)` first tries
`gh issue edit … --add-label priority --milestone milestone_title`.
On success it returns; otherwise it re-fetches the milestone listing,
resolves the title to a number (raising `RuntimeError` when the lookup is
falsy), reads the issue's labels, appends the priority label when absent,
and PATCHes milestone and labels.

The tracker interactions are modelled by `ApplyEnv`; the function returns
the trace of tracker calls it issued together with its outcome. -/

/-- One tracker call issued by `apply_issue`, carrying the data the script
put into the command. -/
inductive Call where
  | issueEdit (number : Int) (addLabel milestoneTitle : String)
  | milestonesList
  | issueGet (number : Int)
  | issuePatch (number : Int) (milestone : Int) (labels : List String)
  deriving DecidableEq, Repr

/-- Environment of one `apply_issue` call: the exit status of each
subprocess it may spawn and the decoded payloads it may read.
`msLines` is the line-delimited milestone listing after JSON decoding:
`none` stands for a line that is blank or fails to parse (skipped by the
`except: continue`), `some (title, number)` for a well-formed line. -/
structure ApplyEnv where
  editOk : Bool
  msListOk : Bool
  msLines : List (Option (String × Int))
  issueGetOk : Bool
  labels : List String
  patchOk : Bool
  deriving Repr

/-- The milestone-listing parse loop shared by `ensure_milestone` and
`apply_issue`: fold the well-formed lines into a dict, skipping the rest. -/
def parseMilestones (lines : List (Option (String × Int))) : PyDict :=
  lines.foldl
    (fun m l => match l with
      | none => m
      | some (t, n) => dictInsert m t n) []

/-- `if priority not in labels: labels.append(priority)` -/
def appendLabel (priority : String) (labels : List String) : List String :=
  if priority ∈ labels then labels else labels ++ [priority]

/-- Shallow embedding of `apply_issue`.  Returns the trace of tracker calls
in order, and `.ok ()` for a normal return or the exception raised. -/
def apply_issue (env : ApplyEnv) (number : Int) (priority : String)
    (milestone_title : String) : List Call × Except PyError Unit :=
  let t0 : List Call := [Call.issueEdit number priority milestone_title]
  if env.editOk then (t0, Except.ok ())
  else
    let t1 := t0 ++ [Call.milestonesList]
    if !env.msListOk then
      (t1, Except.error (PyError.calledProcessError "gh api milestones"))
    else
      let milestones := parseMilestones env.msLines
      match dictGet milestones milestone_title with
      | none =>
          (t1, Except.error
            (PyError.runtimeError ("Milestone not found: " ++ milestone_title)))
      | some ms_number =>
          if ms_number = 0 then
            -- `if not ms_number:` is a truthiness test: id 0 is falsy too.
            (t1, Except.error
              (PyError.runtimeError
                ("Milestone not found: " ++ milestone_title)))
          else
            let t2 := t1 ++ [Call.issueGet number]
            if !env.issueGetOk then
              (t2, Except.error (PyError.calledProcessError "gh api issue"))
            else
              let labels := appendLabel priority env.labels
              let t3 := t2 ++ [Call.issuePatch number ms_number labels]
              if env.patchOk then (t3, Except.ok ())
              else (t3, Except.error (PyError.calledProcessError "gh api patch"))

/-- **C4.** When the primary combined edit succeeds, `apply_issue` stops
there: the trace is the single edit call — no milestone listing, no
issue-get, no patch. -/
theorem apply_issue_primary_no_fallback (env : ApplyEnv) (number : Int)
    (priority milestone_title : String) (h : env.editOk = true) :
    apply_issue env number priority milestone_title =
      ([Call.issueEdit number priority milestone_title], Except.ok ()) := by
  simp [apply_issue, h]

/-- **C4 witness.** -/
theorem apply_issue_primary_no_fallback_witness :
    apply_issue ⟨true, true, [], true, [], true⟩ 10 "P0" "M1" =
      ([Call.issueEdit 10 "P0" "M1"], Except.ok ()) :=
  apply_issue_primary_no_fallback ⟨true, true, [], true, [], true⟩ 10 "P0" "M1"
    rfl

/-- **C2.** When the primary edit fails and the milestone title is absent
from the freshly fetched listing, `apply_issue` raises
`RuntimeError("Milestone not found: …")`, and the trace shows no patch
call was made (it stops at the listing). -/
theorem apply_issue_milestone_not_found (env : ApplyEnv) (number : Int)
    (priority milestone_title : String)
    (hEdit : env.editOk = false) (hList : env.msListOk = true)
    (hAbsent : dictGet (parseMilestones env.msLines) milestone_title = none) :
    apply_issue env number priority milestone_title =
      ([Call.issueEdit number priority milestone_title, Call.milestonesList],
        Except.error
          (PyError.runtimeError ("Milestone not found: " ++ milestone_title))) := by
  simp [apply_issue, hEdit, hList, hAbsent]

/-- **C2 witness.** -/
theorem apply_issue_milestone_not_found_witness :
    apply_issue ⟨false, true, [], true, [], true⟩ 1 "P0" "MISSING" =
      ([Call.issueEdit 1 "P0" "MISSING", Call.milestonesList],
        Except.error (PyError.runtimeError "Milestone not found: MISSING")) :=
  apply_issue_milestone_not_found ⟨false, true, [], true, [], true⟩ 1 "P0"
    "MISSING" rfl rfl rfl

theorem mem_appendLabel (priority : String) (labels : List String) (x : String) :
    x ∈ appendLabel priority labels ↔ x ∈ labels ∨ x = priority := by
  unfold appendLabel
  by_cases h : priority ∈ labels
  · simp only [h, if_true]
    constructor
    · exact Or.inl
    · rintro (hx | rfl)
      · exact hx
      · exact h
  · simp [h]

theorem count_appendLabel_self (priority : String) (labels : List String)
    (h : labels.Nodup) : (appendLabel priority labels).count priority = 1 := by
  unfold appendLabel
  by_cases hp : priority ∈ labels
  · simp only [hp, if_true]
    exact List.count_eq_one_of_mem h hp
  · simp only [hp, if_false, List.count_append]
    rw [List.count_eq_zero.mpr hp]
    simp

theorem appendLabel_nodup (priority : String) (labels : List String)
    (h : labels.Nodup) : (appendLabel priority labels).Nodup := by
  unfold appendLabel
  by_cases hp : priority ∈ labels
  · simpa [hp] using h
  · simp [hp, List.nodup_append, h]

/-- **C3.** On the fallback path with a resolvable milestone, the label
list sent in the PATCH is `appendLabel priority existing`: as a set it is
exactly `existing ∪ {priority}` (every pre-existing label kept, nothing
removed), and — the issue's labels being distinct — the priority label
occurs in it exactly once. -/
theorem apply_issue_fallback_label_union (env : ApplyEnv) (number : Int)
    (priority milestone_title : String) (ms_number : Int)
    (hEdit : env.editOk = false) (hList : env.msListOk = true)
    (hMs : dictGet (parseMilestones env.msLines) milestone_title =
      some ms_number)
    (hNz : ms_number ≠ 0) (hGet : env.issueGetOk = true)
    (hNodup : env.labels.Nodup) :
    (apply_issue env number priority milestone_title).1 =
      [Call.issueEdit number priority milestone_title, Call.milestonesList,
        Call.issueGet number,
        Call.issuePatch number ms_number (appendLabel priority env.labels)] ∧
    (∀ x, x ∈ appendLabel priority env.labels ↔
      x ∈ env.labels ∨ x = priority) ∧
    (appendLabel priority env.labels).count priority = 1 := by
  refine ⟨?_, fun x => mem_appendLabel priority env.labels x,
    count_appendLabel_self priority env.labels hNodup⟩
  by_cases hp : env.patchOk <;>
    simp [apply_issue, hEdit, hList, hMs, hNz, hGet, hp]

/-- **C3 witness.** Fallback on an issue labelled `["existing"]`:
the patch carries `["existing", "P0"]`. -/
theorem apply_issue_fallback_label_union_witness :
    (apply_issue ⟨false, true, [some ("M1", 1)], true, ["existing"], true⟩
        99 "P0" "M1").1 =
      [Call.issueEdit 99 "P0" "M1", Call.milestonesList, Call.issueGet 99,
        Call.issuePatch 99 1 ["existing", "P0"]] ∧
    (∀ x, x ∈ appendLabel "P0" ["existing"] ↔
      x ∈ ["existing"] ∨ x = "P0") ∧
    (appendLabel "P0" ["existing"]).count "P0" = 1 :=
  apply_issue_fallback_label_union
    ⟨false, true, [some ("M1", 1)], true, ["existing"], true⟩ 99 "P0" "M1" 1
    rfl rfl rfl (by decide) rfl (by simp)

/-! ## Idempotence of `apply_issue` (tracker-state semantics)

For the idempotency property the observable effect of `apply_issue` on the
tracker's record of the issue is needed.  The label computation is the
source's (`appendLabel`); the effect of the two mutating tracker commands
is modelled from the spec: the primary `gh issue edit --add-label L
--milestone T` adds label `L` and points the issue at milestone `T`, the
fallback PATCH replaces the issue's labels by the sent list and sets the
sent milestone id, and a failed command leaves the issue unchanged. -/

/-- The tracker's record of one issue: its label list and the id of the
milestone it is assigned to, if any. -/
structure IssueState where
  labels : List String
  milestone : Option Int
  deriving DecidableEq, Repr

/-- Modelled from the spec: one `apply_issue` run as a transformation of
the tracker's issue record.  `editOk`, `issueGetOk`, `patchOk` fix the
exit status of the corresponding subprocesses; `milestones` is the
tracker's milestone table (used both to give the primary edit's
by-title assignment its id and for the fallback lookup).  Returns the
issue record after the run and the run's outcome. -/
def apply_issue_effect (editOk issueGetOk patchOk : Bool) (milestones : PyDict)
    (priority milestone_title : String) (s : IssueState) :
    IssueState × Except PyError Unit :=
  if editOk then
    (⟨appendLabel priority s.labels, dictGet milestones milestone_title⟩,
      Except.ok ())
  else
    match dictGet milestones milestone_title with
    | none =>
        (s, Except.error
          (PyError.runtimeError ("Milestone not found: " ++ milestone_title)))
    | some ms_number =>
        if ms_number = 0 then
          (s, Except.error
            (PyError.runtimeError ("Milestone not found: " ++ milestone_title)))
        else if !issueGetOk then
          (s, Except.error (PyError.calledProcessError "gh api issue"))
        else if patchOk then
          (⟨appendLabel priority s.labels, some ms_number⟩, Except.ok ())
        else
          (s, Except.error (PyError.calledProcessError "gh api patch"))

theorem appendLabel_mem_self (priority : String) (labels : List String) :
    priority ∈ appendLabel priority labels := by
  unfold appendLabel
  by_cases h : priority ∈ labels <;> simp [h]

theorem appendLabel_of_mem (priority : String) (labels : List String)
    (h : priority ∈ labels) : appendLabel priority labels = labels := by
  simp [appendLabel, h]

/-- `appendLabel` never regresses and is idempotent. -/
theorem appendLabel_idem (priority : String) (labels : List String) :
    appendLabel priority (appendLabel priority labels) =
      appendLabel priority labels :=
  appendLabel_of_mem priority (appendLabel priority labels)
    (appendLabel_mem_self priority labels)

/-- **C5.** Idempotence: after a successful `apply_issue` run left the
issue in state `s'`, a second run with the same priority, milestone title
and milestone table never changes `s'` — whichever path the second run
takes and however its subprocesses exit. -/
theorem apply_issue_idempotent (e₁ g₁ p₁ e₂ g₂ p₂ : Bool)
    (milestones : PyDict) (priority milestone_title : String)
    (s s' : IssueState)
    (h : apply_issue_effect e₁ g₁ p₁ milestones priority milestone_title s =
      (s', Except.ok ())) :
    (apply_issue_effect e₂ g₂ p₂ milestones priority milestone_title s').1 =
      s' := by
  have hLabels : priority ∈ s'.labels ∧
      s'.milestone = dictGet milestones milestone_title := by
    unfold apply_issue_effect at h
    split at h
    · have h1 := congrArg Prod.fst h
      simp only at h1
      rw [← h1]
      exact ⟨appendLabel_mem_self priority s.labels, rfl⟩
    · split at h
      · simp at h
      next ms_number hms =>
        split at h
        · simp at h
        · split at h
          · simp at h
          · split at h
            · have h1 := congrArg Prod.fst h
              simp only at h1
              rw [← h1]
              exact ⟨appendLabel_mem_self priority s.labels, by simp [hms]⟩
            · simp at h
  obtain ⟨hMem, hMil⟩ := hLabels
  have hApp : appendLabel priority s'.labels = s'.labels :=
    appendLabel_of_mem priority s'.labels hMem
  unfold apply_issue_effect
  split
  · show IssueState.mk (appendLabel priority s'.labels)
      (dictGet milestones milestone_title) = s'
    rw [hApp, ← hMil]
  · split
    · rfl
    next ms_number hms =>
      split
      · rfl
      · split
        · rfl
        · split
          · show IssueState.mk (appendLabel priority s'.labels)
              (some ms_number) = s'
            rw [hApp]
            have hsm : some ms_number = s'.milestone := by rw [hMil, hms]
            rw [hsm]
          · rfl

/-- **C5 witness.** A fresh issue, successfully applied, is a fixed point
of a second application. -/
theorem apply_issue_idempotent_witness :
    (apply_issue_effect false true true [("M1", 7)] "P1" "M1"
        ⟨["P1"], some 7⟩).1 = ⟨["P1"], some 7⟩ :=
  apply_issue_idempotent true true true false true true [("M1", 7)] "P1" "M1"
    ⟨[], none⟩ ⟨["P1"], some 7⟩ (by simp [apply_issue_effect, appendLabel,
      dictGet, List.find?])

/-! ## `ensure_label` (Label Ensurer)

`ensure_label` runs `gh label view name` with `check=False`; when that
fails it runs `gh label create …`, again with `check=False`, and on a
nonzero exit status only writes a warning to stderr.  Since both
subprocesses are spawned with `check=False`, no code path can raise: the
embedding returns the stderr output inside `Except.ok`, and the
possibility of an exception is kept in the type to state that it is never
used. -/

/-- Shallow embedding of `ensure_label`.  `viewRc`/`createRc` are the exit
statuses of the two subprocesses; the result is the list of warning lines
written to stderr, inside the (never taken) error monad. -/
def ensure_label (name : String) (viewRc createRc : Int) :
    Except PyError (List String) :=
  if viewRc = 0 then Except.ok []
  else if createRc = 0 then Except.ok []
  else Except.ok ["Warning: failed to create label '" ++ name ++ "'"]

/-- **C6.** When the label is absent (the view fails) and creation fails
too, `ensure_label` returns normally with a warning on the error channel —
the failure is never propagated as an error. -/
theorem ensure_label_soft_failure (name : String) (viewRc createRc : Int)
    (hView : viewRc ≠ 0) (hCreate : createRc ≠ 0) :
    ensure_label name viewRc createRc =
      Except.ok ["Warning: failed to create label '" ++ name ++ "'"] := by
  simp [ensure_label, hView, hCreate]

/-- **C6 witness.** -/
theorem ensure_label_soft_failure_witness :
    ensure_label "P9" 1 1 =
      Except.ok ["Warning: failed to create label 'P9'"] :=
  ensure_label_soft_failure "P9" 1 1 (by decide) (by decide)

/-! ## `ensure_milestone` (Milestone Resolver)

`ensure_milestone(title, description, repo)` lists the milestones
(`check=True`), parses the line-delimited listing with the same loop as
`apply_issue`, returns `int(numbers[title])` when the title is present,
and otherwise POSTs a creation request and parses the created object's
number (re-raising the parse exception on failure). -/

/-- One tracker call issued by `ensure_milestone`. -/
inductive MsCall where
  | list
  | create (title description : String)
  deriving DecidableEq, Repr

/-- Shallow embedding of `ensure_milestone`.  `listOk` is the exit status
of the listing call, `lines` its decoded line-delimited payload,
`createResp` the decoded `number` field of the creation response
(`none` when the response fails to parse).  Returns the trace of tracker
calls and the resolved milestone number or the exception raised. -/
def ensure_milestone (listOk : Bool) (lines : List (Option (String × Int)))
    (createResp : Option Int) (title description : String) :
    List MsCall × Except PyError Int :=
  if !listOk then
    ([MsCall.list], Except.error (PyError.calledProcessError "gh api milestones"))
  else
    let numbers := parseMilestones lines
    match dictGet numbers title with
    | some n => ([MsCall.list], Except.ok n)
    | none =>
        match createResp with
        | some created =>
            ([MsCall.list, MsCall.create title description], Except.ok created)
        | none =>
            ([MsCall.list, MsCall.create title description],
              Except.error (PyError.parseError "Failed to create milestone"))

/-- **C9.** When the requested title is present in the fetched listing,
`ensure_milestone` returns its id from the listing and the trace shows a
single listing call: no create request is issued. -/
theorem ensure_milestone_existing (listOk : Bool)
    (lines : List (Option (String × Int))) (createResp : Option Int)
    (title description : String) (n : Int)
    (hList : listOk = true)
    (hMem : dictGet (parseMilestones lines) title = some n) :
    ensure_milestone listOk lines createResp title description =
      ([MsCall.list], Except.ok n) := by
  simp [ensure_milestone, hList, hMem]

/-- **C9 witness.** A listing holding `M1 ↦ 1` and `M2 ↦ 2` resolves
`M2` to `2` with no create call. -/
theorem ensure_milestone_existing_witness :
    ensure_milestone true [some ("M1", 1), some ("M2", 2)] none "M2" "desc" =
      ([MsCall.list], Except.ok 2) :=
  ensure_milestone_existing true [some ("M1", 1), some ("M2", 2)] none "M2"
    "desc" 2 rfl (by simp [parseMilestones, dictInsert, dictGet, List.find?])

/-! ## The Plan Runner (`main`'s per-issue loop)

After the startup checks, `main` iterates over the plan:

```
for title, (prio, ms_title) in plan.items():
    num = title_to_num.get(title)
    if not num:
        missing.append(title)
        continue
    ensure_label(prio, "ededed", f"Priority {prio}", repo)
    try:
        apply_issue(repo, num, prio, ms_title)
        print(f"Updated issue #{num}: ...")
    except subprocess.CalledProcessError as e:
        print(f"Failed to update issue #{num}: ...")
```

The embedding keeps the observable report: which issues were handed to
`apply_issue` (`applied`), which were printed as updated (`updated`),
which were printed as failed (`failed`), and the `missing` list.  The
`ensure_label` call inside the loop never raises (see `ensure_label`
above) and leaves no trace in the report, so it is not repeated here.
Only `subprocess.CalledProcessError` is caught: any other exception
escapes `main` and terminates the interpreter with exit code 1, which the
embedding records as a `some` error alongside the state reached. -/

/-- The observable per-run report of the Plan Runner. -/
structure RunState where
  applied : List (String × Int)
  updated : List (String × Int)
  failed : List (String × Int × String)
  missing : List String
  deriving DecidableEq, Repr

/-- The report at the start of the loop. -/
def initState : RunState := ⟨[], [], [], []⟩

/-- Shallow embedding of `main`'s per-issue loop.  `applyOut` gives the
outcome of `apply_issue` for a number/priority/milestone-title triple;
the loop runs over the plan in iteration order and returns the final
report together with the uncaught exception, if one escaped. -/
def runPlan (applyOut : Int → String → String → Except PyError Unit)
    (index : PyDict) :
    List (String × String × String) → RunState → RunState × Option PyError
  | [], st => (st, none)
  | (title, prio, ms_title) :: rest, st =>
    match dictGet index title with
    | none =>
        runPlan applyOut index rest
          { st with missing := st.missing ++ [title] }
    | some num =>
        if num = 0 then
          -- `if not num:` tests truthiness, so number 0 is treated as absent.
          runPlan applyOut index rest
            { st with missing := st.missing ++ [title] }
        else
          let st' := { st with applied := st.applied ++ [(title, num)] }
          match applyOut num prio ms_title with
          | Except.ok _ =>
              runPlan applyOut index rest
                { st' with updated := st'.updated ++ [(title, num)] }
          | Except.error (PyError.calledProcessError e) =>
              runPlan applyOut index rest
                { st' with failed := st'.failed ++ [(title, num, e)] }
          | Except.error err => (st', some err)

/-- Exit code of the whole run: 0 when the loop completes, 1 when an
uncaught exception escapes `main`. -/
def mainExit (r : RunState × Option PyError) : Nat :=
  match r.2 with
  | none => 0
  | some _ => 1

theorem runPlan_nil (applyOut : Int → String → String → Except PyError Unit)
    (index : PyDict) (st : RunState) :
    runPlan applyOut index [] st = (st, none) := rfl

theorem runPlan_cons_absent {applyOut : Int → String → String → Except PyError Unit}
    {index : PyDict} {title prio ms_title : String}
    {rest : List (String × String × String)} {st : RunState}
    (h : dictGet index title = none) :
    runPlan applyOut index ((title, prio, ms_title) :: rest) st =
      runPlan applyOut index rest
        { st with missing := st.missing ++ [title] } := by
  simp [runPlan, h]

theorem runPlan_cons_zero {applyOut : Int → String → String → Except PyError Unit}
    {index : PyDict} {title prio ms_title : String}
    {rest : List (String × String × String)} {st : RunState}
    (h : dictGet index title = some 0) :
    runPlan applyOut index ((title, prio, ms_title) :: rest) st =
      runPlan applyOut index rest
        { st with missing := st.missing ++ [title] } := by
  simp [runPlan, h]

theorem runPlan_cons_ok {applyOut : Int → String → String → Except PyError Unit}
    {index : PyDict} {title prio ms_title : String} {num : Int}
    {rest : List (String × String × String)} {st : RunState}
    (h1 : dictGet index title = some num) (h2 : num ≠ 0)
    (h3 : applyOut num prio ms_title = Except.ok ()) :
    runPlan applyOut index ((title, prio, ms_title) :: rest) st =
      runPlan applyOut index rest
        { st with applied := st.applied ++ [(title, num)],
                  updated := st.updated ++ [(title, num)] } := by
  simp [runPlan, h1, h2, h3]

theorem runPlan_cons_cpe {applyOut : Int → String → String → Except PyError Unit}
    {index : PyDict} {title prio ms_title e : String} {num : Int}
    {rest : List (String × String × String)} {st : RunState}
    (h1 : dictGet index title = some num) (h2 : num ≠ 0)
    (h3 : applyOut num prio ms_title =
      Except.error (PyError.calledProcessError e)) :
    runPlan applyOut index ((title, prio, ms_title) :: rest) st =
      runPlan applyOut index rest
        { st with applied := st.applied ++ [(title, num)],
                  failed := st.failed ++ [(title, num, e)] } := by
  simp [runPlan, h1, h2, h3]

theorem runPlan_cons_runtime {applyOut : Int → String → String → Except PyError Unit}
    {index : PyDict} {title prio ms_title m : String} {num : Int}
    {rest : List (String × String × String)} {st : RunState}
    (h1 : dictGet index title = some num) (h2 : num ≠ 0)
    (h3 : applyOut num prio ms_title =
      Except.error (PyError.runtimeError m)) :
    runPlan applyOut index ((title, prio, ms_title) :: rest) st =
      ({ st with applied := st.applied ++ [(title, num)] },
        some (PyError.runtimeError m)) := by
  simp [runPlan, h1, h2, h3]

theorem runPlan_cons_parse {applyOut : Int → String → String → Except PyError Unit}
    {index : PyDict} {title prio ms_title m : String} {num : Int}
    {rest : List (String × String × String)} {st : RunState}
    (h1 : dictGet index title = some num) (h2 : num ≠ 0)
    (h3 : applyOut num prio ms_title =
      Except.error (PyError.parseError m)) :
    runPlan applyOut index ((title, prio, ms_title) :: rest) st =
      ({ st with applied := st.applied ++ [(title, num)] },
        some (PyError.parseError m)) := by
  simp [runPlan, h1, h2, h3]

theorem runPlan_failed_mono (applyOut : Int → String → String → Except PyError Unit)
    (index : PyDict) (plan : List (String × String × String)) :
    ∀ (st : RunState) (x : String × Int × String), x ∈ st.failed →
      x ∈ (runPlan applyOut index plan st).1.failed := by
  induction plan with
  | nil => intro st x hx; exact hx
  | cons entry rest ih =>
    intro st x hx
    obtain ⟨title, prio, ms_title⟩ := entry
    cases hms : dictGet index title with
    | none =>
        rw [runPlan_cons_absent hms]
        exact ih _ x hx
    | some num =>
      by_cases hz : num = 0
      · subst hz
        rw [runPlan_cons_zero hms]
        exact ih _ x hx
      · cases hout : applyOut num prio ms_title with
        | ok u =>
            cases u
            rw [runPlan_cons_ok hms hz hout]
            exact ih _ x hx
        | error err =>
          cases err with
          | calledProcessError e =>
              rw [runPlan_cons_cpe hms hz hout]
              exact ih _ x (List.mem_append.mpr (Or.inl hx))
          | runtimeError m =>
              rw [runPlan_cons_runtime hms hz hout]
              exact hx
          | parseError m =>
              rw [runPlan_cons_parse hms hz hout]
              exact hx

theorem runPlan_missing_mono (applyOut : Int → String → String → Except PyError Unit)
    (index : PyDict) (plan : List (String × String × String)) :
    ∀ (st : RunState) (t : String), t ∈ st.missing →
      t ∈ (runPlan applyOut index plan st).1.missing := by
  induction plan with
  | nil => intro st t ht; exact ht
  | cons entry rest ih =>
    intro st t ht
    obtain ⟨title, prio, ms_title⟩ := entry
    cases hms : dictGet index title with
    | none =>
        rw [runPlan_cons_absent hms]
        exact ih _ t (List.mem_append.mpr (Or.inl ht))
    | some num =>
      by_cases hz : num = 0
      · subst hz
        rw [runPlan_cons_zero hms]
        exact ih _ t (List.mem_append.mpr (Or.inl ht))
      · cases hout : applyOut num prio ms_title with
        | ok u =>
            cases u
            rw [runPlan_cons_ok hms hz hout]
            exact ih _ t ht
        | error err =>
          cases err with
          | calledProcessError e =>
              rw [runPlan_cons_cpe hms hz hout]
              exact ih _ t ht
          | runtimeError m =>
              rw [runPlan_cons_runtime hms hz hout]
              exact ht
          | parseError m =>
              rw [runPlan_cons_parse hms hz hout]
              exact ht

theorem runPlan_applied_sound (applyOut : Int → String → String → Except PyError Unit)
    (index : PyDict) (plan : List (String × String × String)) :
    ∀ (st : RunState) (x : String × Int),
      x ∈ (runPlan applyOut index plan st).1.applied →
      x ∈ st.applied ∨ (dictGet index x.1 = some x.2 ∧ x.2 ≠ 0) := by
  induction plan with
  | nil => intro st x hx; exact Or.inl hx
  | cons entry rest ih =>
    intro st x hx
    obtain ⟨title, prio, ms_title⟩ := entry
    cases hms : dictGet index title with
    | none =>
        rw [runPlan_cons_absent hms] at hx
        exact ih { st with missing := st.missing ++ [title] } x hx
    | some num =>
      by_cases hz : num = 0
      · subst hz
        rw [runPlan_cons_zero hms] at hx
        exact ih { st with missing := st.missing ++ [title] } x hx
      · have hnew : x ∈ st.applied ++ [(title, num)] →
            x ∈ st.applied ∨ (dictGet index x.1 = some x.2 ∧ x.2 ≠ 0) := by
          intro hmem
          rcases List.mem_append.mp hmem with hmem | hmem
          · exact Or.inl hmem
          · have hxeq : x = (title, num) := by simpa using hmem
            subst hxeq
            exact Or.inr ⟨hms, hz⟩
        cases hout : applyOut num prio ms_title with
        | ok u =>
            cases u
            rw [runPlan_cons_ok hms hz hout] at hx
            rcases ih _ x hx with hmem | hgood
            · exact hnew hmem
            · exact Or.inr hgood
        | error err =>
          cases err with
          | calledProcessError e =>
              rw [runPlan_cons_cpe hms hz hout] at hx
              rcases ih _ x hx with hmem | hgood
              · exact hnew hmem
              · exact Or.inr hgood
          | runtimeError m =>
              rw [runPlan_cons_runtime hms hz hout] at hx
              exact hnew hx
          | parseError m =>
              rw [runPlan_cons_parse hms hz hout] at hx
              exact hnew hx

theorem runPlan_cpe_aux (applyOut : Int → String → String → Except PyError Unit)
    (index : PyDict)
    (h : ∀ n p t, applyOut n p t = Except.ok () ∨
      ∃ e, applyOut n p t = Except.error (PyError.calledProcessError e)) :
    ∀ (plan : List (String × String × String)) (st : RunState),
      (runPlan applyOut index plan st).2 = none ∧
      ∀ title prio ms n e, (title, prio, ms) ∈ plan →
        dictGet index title = some n → n ≠ 0 →
        applyOut n prio ms = Except.error (PyError.calledProcessError e) →
        (title, n, e) ∈ (runPlan applyOut index plan st).1.failed := by
  intro plan
  induction plan with
  | nil =>
      intro st
      refine ⟨rfl, ?_⟩
      intro title prio ms n e hmem
      simp at hmem
  | cons entry rest ih =>
    intro st
    obtain ⟨title₀, prio₀, ms₀⟩ := entry
    cases hms : dictGet index title₀ with
    | none =>
        rw [runPlan_cons_absent hms]
        refine ⟨(ih _).1, ?_⟩
        intro title prio ms n e hmem hidx hnz hout
        rcases List.mem_cons.mp hmem with heq | hmem
        · injection heq with ht h2
          rw [ht, hms] at hidx
          cases hidx
        · exact (ih _).2 title prio ms n e hmem hidx hnz hout
    | some num =>
      by_cases hz : num = 0
      · subst hz
        rw [runPlan_cons_zero hms]
        refine ⟨(ih _).1, ?_⟩
        intro title prio ms n e hmem hidx hnz hout
        rcases List.mem_cons.mp hmem with heq | hmem
        · injection heq with ht h2
          rw [ht, hms] at hidx
          injection hidx with hn
          exact absurd hn.symm hnz
        · exact (ih _).2 title prio ms n e hmem hidx hnz hout
      · rcases h num prio₀ ms₀ with hok | ⟨e₀, herr⟩
        · rw [runPlan_cons_ok hms hz hok]
          refine ⟨(ih _).1, ?_⟩
          intro title prio ms n e hmem hidx hnz hout
          rcases List.mem_cons.mp hmem with heq | hmem
          · injection heq with ht h2
            injection h2 with hp hm
            rw [ht, hms] at hidx
            injection hidx with hn
            rw [hn, ← hp, ← hm] at hok
            rw [hok] at hout
            cases hout
          · exact (ih _).2 title prio ms n e hmem hidx hnz hout
        · rw [runPlan_cons_cpe hms hz herr]
          refine ⟨(ih _).1, ?_⟩
          intro title prio ms n e hmem hidx hnz hout
          rcases List.mem_cons.mp hmem with heq | hmem
          · injection heq with ht h2
            injection h2 with hp hm
            subst ht; subst hp; subst hm
            rw [hms] at hidx
            injection hidx with hn
            subst hn
            rw [herr] at hout
            injection hout with hcpe
            injection hcpe with he
            subst he
            apply runPlan_failed_mono
            simp
          · exact (ih _).2 title prio ms n e hmem hidx hnz hout

/-- **C1 (amended).** When every `apply_issue` outcome is either success
or `subprocess.CalledProcessError`, the Plan Runner records each failing
entry as failed, continues with the remaining entries, and the run
completes with exit code 0. -/
theorem runPlan_cpe_contained
    (applyOut : Int → String → String → Except PyError Unit) (index : PyDict)
    (plan : List (String × String × String))
    (h : ∀ n p t, applyOut n p t = Except.ok () ∨
      ∃ e, applyOut n p t = Except.error (PyError.calledProcessError e)) :
    mainExit (runPlan applyOut index plan initState) = 0 ∧
    ∀ title prio ms n e, (title, prio, ms) ∈ plan →
      dictGet index title = some n → n ≠ 0 →
      applyOut n prio ms = Except.error (PyError.calledProcessError e) →
      (title, n, e) ∈ (runPlan applyOut index plan initState).1.failed := by
  obtain ⟨h1, h2⟩ := runPlan_cpe_aux applyOut index h plan initState
  refine ⟨?_, h2⟩
  unfold mainExit
  rw [h1]

/-- **C1 witness.** One plan entry whose apply fails with
`CalledProcessError`: recorded as failed, exit code 0. -/
theorem runPlan_cpe_contained_witness :
    mainExit (runPlan (fun _ _ _ =>
        Except.error (PyError.calledProcessError "boom"))
      [("T", 5)] [("T", "P0", "M0")] initState) = 0 ∧
    ("T", 5, "boom") ∈ (runPlan (fun _ _ _ =>
        Except.error (PyError.calledProcessError "boom"))
      [("T", 5)] [("T", "P0", "M0")] initState).1.failed := by
  obtain ⟨h1, h2⟩ := runPlan_cpe_contained
    (fun _ _ _ => Except.error (PyError.calledProcessError "boom"))
    [("T", 5)] [("T", "P0", "M0")]
    (fun n p t => Or.inr ⟨"boom", rfl⟩)
  refine ⟨h1, h2 "T" "P0" "M0" 5 "boom" (by simp) ?_ (by decide) rfl⟩
  simp [dictGet, List.find?]

/-- **C1 counterexample.** The claim as stated is false: `main` catches
only `subprocess.CalledProcessError`, so the `RuntimeError` raised by
`apply_issue` when the fallback milestone lookup fails escapes the loop.
With one plan entry present in the index and a milestone listing that
lacks the title, the run aborts with the uncaught `RuntimeError`
(exit code 1) and the entry is *not* recorded as failed. -/
theorem runPlan_runtime_error_aborts :
    mainExit (runPlan
        (fun num p t =>
          (apply_issue ⟨false, true, [], true, [], true⟩ num p t).2)
        [("T", 1)] [("T", "P0", "M1")] initState) = 1 ∧
    (runPlan
        (fun num p t =>
          (apply_issue ⟨false, true, [], true, [], true⟩ num p t).2)
        [("T", 1)] [("T", "P0", "M1")] initState).1.failed = [] ∧
    runPlan
        (fun num p t =>
          (apply_issue ⟨false, true, [], true, [], true⟩ num p t).2)
        [("T", 1)] [("T", "P0", "M1")] initState =
      (⟨[("T", 1)], [], [], []⟩,
        some (PyError.runtimeError "Milestone not found: M1")) :=
  ⟨rfl, rfl, rfl⟩

theorem runPlan_zero_missing_aux
    (applyOut : Int → String → String → Except PyError Unit) (index : PyDict)
    (title prio ms : String) (hz : dictGet index title = some 0) :
    ∀ (plan : List (String × String × String)) (st : RunState),
      (title, prio, ms) ∈ plan →
      (runPlan applyOut index plan st).2 = none →
      title ∈ (runPlan applyOut index plan st).1.missing := by
  intro plan
  induction plan with
  | nil => intro st hmem hdone; simp at hmem
  | cons entry rest ih =>
    intro st hmem hdone
    obtain ⟨title₀, prio₀, ms₀⟩ := entry
    rcases List.mem_cons.mp hmem with heq | hmem
    · injection heq with ht h2
      subst ht
      rw [runPlan_cons_zero hz]
      apply runPlan_missing_mono
      simp
    · cases hms : dictGet index title₀ with
      | none =>
          rw [runPlan_cons_absent hms] at hdone ⊢
          exact ih _ hmem hdone
      | some num =>
        by_cases hnz : num = 0
        · subst hnz
          rw [runPlan_cons_zero hms] at hdone ⊢
          exact ih _ hmem hdone
        · cases hout : applyOut num prio₀ ms₀ with
          | ok u =>
              cases u
              rw [runPlan_cons_ok hms hnz hout] at hdone ⊢
              exact ih _ hmem hdone
          | error err =>
            cases err with
            | calledProcessError e =>
                rw [runPlan_cons_cpe hms hnz hout] at hdone ⊢
                exact ih _ hmem hdone
            | runtimeError m =>
                rw [runPlan_cons_runtime hms hnz hout] at hdone
                cases hdone
            | parseError m =>
                rw [runPlan_cons_parse hms hnz hout] at hdone
                cases hdone

/-- **C10.** A plan title whose index entry is the number 0 is treated
exactly like an absent title: when the run completes it is recorded under
missing, and `apply_issue` is never invoked for it. -/
theorem runPlan_zero_number_missing
    (applyOut : Int → String → String → Except PyError Unit) (index : PyDict)
    (plan : List (String × String × String)) (title prio ms : String)
    (hz : dictGet index title = some 0)
    (hmem : (title, prio, ms) ∈ plan)
    (hdone : (runPlan applyOut index plan initState).2 = none) :
    title ∈ (runPlan applyOut index plan initState).1.missing ∧
    ∀ n, (title, n) ∉ (runPlan applyOut index plan initState).1.applied := by
  constructor
  · exact runPlan_zero_missing_aux applyOut index title prio ms hz plan
      initState hmem hdone
  · intro n hn
    rcases runPlan_applied_sound applyOut index plan initState (title, n) hn
      with hmem' | ⟨hidx, hnz⟩
    · simp [initState] at hmem'
    · rw [hz] at hidx
      injection hidx with hn0
      exact hnz hn0.symm

/-- **C10 witness.** Index `{"T": 0}`: the single plan entry for `T` is
reported missing and never applied. -/
theorem runPlan_zero_number_missing_witness :
    "T" ∈ (runPlan (fun _ _ _ => Except.ok ()) [("T", 0)]
      [("T", "P0", "M0")] initState).1.missing ∧
    ∀ n, ("T", n) ∉ (runPlan (fun _ _ _ => Except.ok ()) [("T", 0)]
      [("T", "P0", "M0")] initState).1.applied :=
  runPlan_zero_number_missing (fun _ _ _ => Except.ok ()) [("T", 0)]
    [("T", "P0", "M0")] "T" "P0" "M0" (by simp [dictGet, List.find?])
    (by simp) rfl

end ApplyPriority

namespace CheckGoCoverage

/-! ## The coverage gate (`check_go_coverage.py`)

After parsing the `total:` line, the script runs (lines 32-41):

```
pct = float(m.group(1))
if pct == 0.0:
    print("No measured statements; skipping enforcement.")
    sys.exit(0)
if abs(pct - 100.0) > 1e-9:
    print(f"Coverage {pct}% is below required 100%", file=sys.stderr)
    sys.exit(1)
print("Coverage OK: 100%")
```

The parsed percentage is modelled as an exact rational.  The literals
`0.0`, `100.0` and `1e-9` are exactly representable IEEE doubles, and at
every input below the double subtraction and comparison happen far from
the rounding threshold, so the rational model gives the same verdicts as
the script's float arithmetic. -/

/-- Exit code of the threshold check as a function of the parsed total
percentage: 0 on the skip-enforcement and pass paths, 1 on failure. -/
def coverage_exit (pct : ℚ) : Nat :=
  if pct = 0 then 0
  else if |pct - 100| > 1 / 1000000000 then 1
  else 0

/-- **C7 counterexample.** `100 - 10⁻¹⁰` is strictly between 0 and 100,
yet the gate exits 0 (the claim says a percentage strictly between 0 and
100 exits 1): the comparison against 100 carries a `1e-9` tolerance. -/
theorem coverage_exit_between_counterexample :
    (0 : ℚ) < 100 - 1 / 10000000000 ∧
    (100 - 1 / 10000000000 : ℚ) < 100 ∧
    coverage_exit (100 - 1 / 10000000000) = 0 := by
  refine ⟨by norm_num, by norm_num, ?_⟩
  have h1 : ¬ ((100 - 1 / 10000000000 : ℚ) = 0) := by norm_num
  have h2 : ¬ (|(100 - 1 / 10000000000 : ℚ) - 100| > 1 / 1000000000) := by
    rw [show (100 - 1 / 10000000000 : ℚ) - 100 = -(1 / 10000000000) by ring,
      abs_neg, abs_of_pos (by norm_num : (0 : ℚ) < 1 / 10000000000)]
    norm_num
  unfold coverage_exit
  rw [if_neg h1, if_neg h2]

/-- **C7 (amended).** The three-state guard, with the failure band as the
code draws it: a parsed percentage of exactly 0 skips enforcement and
exits 0; a positive percentage more than `1e-9` below 100 fails with exit
code 1; a percentage of exactly 100 passes with exit code 0. -/
theorem coverage_exit_three_state (pct : ℚ) :
    (pct = 0 → coverage_exit pct = 0) ∧
    (0 < pct → 100 - pct > 1 / 1000000000 → coverage_exit pct = 1) ∧
    (pct = 100 → coverage_exit pct = 0) := by
  refine ⟨?_, ?_, ?_⟩
  · intro h
    simp [coverage_exit, h]
  · intro h0 hgap
    have hne : pct ≠ 0 := ne_of_gt h0
    have habs : |pct - 100| = 100 - pct := by
      rw [abs_sub_comm]
      exact abs_of_pos (by linarith)
    have hgt : |pct - 100| > 1 / 1000000000 := by
      rw [habs]; exact hgap
    unfold coverage_exit
    rw [if_neg hne, if_pos hgt]
  · intro h
    subst h
    norm_num [coverage_exit]

/-- **C7 witness.** The three states at 0, 50 and 100 percent. -/
theorem coverage_exit_three_state_witness :
    coverage_exit 0 = 0 ∧ coverage_exit 50 = 1 ∧ coverage_exit 100 = 0 :=
  ⟨(coverage_exit_three_state 0).1 rfl,
    (coverage_exit_three_state 50).2.1 (by norm_num) (by norm_num),
    (coverage_exit_three_state 100).2.2 rfl⟩

end CheckGoCoverage
